import Mathlib

/-!
Verification development for the place-review REST API.

The repository under verification contains the Express wiring (app.js) and the
centralized error-handling middleware (src/middlewares/error.middleware.js,
present as src/unnamed/part_000).  The error handler is embedded here directly
from that source.  The business-logic modules (review service, place service,
search, aggregation) are not present in the source tree; they are modelled
from the specification, and every such definition is marked
`Modelled from the spec:` in its doc comment.
-/

namespace PlaceReview

/-! ### Error handler, embedded from src/unnamed/part_000 -/

/-- A JavaScript error value as seen by the middleware: it may carry a
`statusCode` field (absent or any number), a `code` field (absent or a
string), and always a `message` and a `stack`. -/
structure JsError where
  statusCode : Option Nat
  code : Option String
  message : String
  stack : String
deriving DecidableEq, Repr

/-- The JSON body sent on error.  The source always emits an `error` object
with a `message` field; the Prisma-P2002 branch additionally emits a `code`
field inside the `error` object, modelled by the `code : Option String`
component (`none` means the field is absent from the JSON). -/
structure ErrorBody where
  message : String
  code : Option String
deriving DecidableEq, Repr

/-- An HTTP error response: status plus the JSON error body. -/
structure HttpResponse where
  status : Nat
  body : ErrorBody
deriving DecidableEq, Repr

/-- The `errorHandler` middleware from src/unnamed/part_000.
JavaScript truthiness: `if (err.statusCode)` is taken only when the field is
present and nonzero, hence the `some (n + 1)` pattern.  The P2002 branch uses
strict equality on the `code` field.  The `console.error` call only logs and
does not affect the response, so it is not part of the function. -/
def errorHandler (err : JsError) : HttpResponse :=
  match err.statusCode with
  | some (n + 1) =>
    { status := n + 1, body := { message := err.message, code := none } }
  | _ =>
    if err.code == some "P2002" then
      { status := 409,
        body := { message := "Resource already exists",
                  code := some "DUPLICATE_RESOURCE" } }
    else
      { status := 500, body := { message := "Internal server error", code := none } }

/-! ### Data model.  Modelled from the spec: the Prisma schema and the
in-store rows (User, Place, Review) are not in the source tree; they follow
section 3 of the spec. -/

/-- Modelled from the spec: a user row (section 3).  `passwordHash` and
`phone` are private fields that must never reach a review payload. -/
structure User where
  id : Nat
  name : String
  phone : String
  passwordHash : String
deriving DecidableEq, Repr

/-- Modelled from the spec: a place row (section 3), unique on
(name, address). -/
structure Place where
  id : Nat
  name : String
  address : String
deriving DecidableEq, Repr

/-- Modelled from the spec: a review row (section 3), unique on
(userId, placeId).  The rating column is an integer (validation restricts it
to 1..5 before insertion).  `createdAt` is an abstract timestamp. -/
structure Review where
  id : Nat
  rating : ℤ
  text : String
  userId : Nat
  placeId : Nat
  createdAt : Nat
deriving DecidableEq, Repr

/-- Modelled from the spec: the persistent store — the three tables plus the
id sequences the database uses to generate surrogate keys. -/
structure Store where
  users : List User
  places : List Place
  reviews : List Review
  nextPlaceId : Nat
  nextReviewId : Nat
deriving DecidableEq, Repr

/-- Modelled from the spec: the error taxonomy of section 7 (the kinds the
domain operations raise; AuthError stays in the collaborator layer and
InternalError is the translator fallback). -/
inductive DomainError where
  | ValidationError (msg : String)
  | NotFoundError (msg : String)
  | ConflictError (msg : String)
deriving DecidableEq, Repr

deriving instance DecidableEq for Except

/-- Modelled from the spec: exact (name, address) lookup of a place
(section 4.1 step 2). -/
def findPlace (s : Store) (name address : String) : Option Place :=
  s.places.find? (fun p => p.name == name && p.address == address)

/-- Modelled from the spec: lookup of the unique review by (userId, placeId)
(section 4.1 step 3, the uniqueness constraint). -/
def findReview (s : Store) (userId placeId : Nat) : Option Review :=
  s.reviews.find? (fun r => r.userId == userId && r.placeId == placeId)

/-- Modelled from the spec: the review-submission input (section 4.1).  The
rating arrives as a JSON number, hence a rational that validation must check
to be an integer in [1,5]. -/
structure SubmitInput where
  userId : Nat
  placeName : String
  address : String
  rating : ℚ
  text : String
deriving DecidableEq, Repr

/-- Modelled from the spec: rating validation — an integer in [1,5]
(section 4.1 step 1). -/
def ratingValid (r : ℚ) : Bool :=
  r.den == 1 && decide (1 ≤ r.num) && decide (r.num ≤ 5)

/-- Modelled from the spec: the atomic review-submission transaction
(section 4.1).  It validates the rating, resolves or creates the place,
and inserts the review guarded by the (userId, placeId) uniqueness
constraint.  The operation returns the outcome together with the store
after the transaction: every error branch returns the original store —
the transaction rolls back, so a place created inside a failed
transaction does not survive. -/
def submitReview (s : Store) (inp : SubmitInput) (now : Nat) :
    Except DomainError Review × Store :=
  if ratingValid inp.rating = false then
    (.error (.ValidationError "rating must be an integer between 1 and 5"), s)
  else
    match findPlace s inp.placeName inp.address with
    | some p =>
      match findReview s inp.userId p.id with
      | some _ => (.error (.ConflictError "already reviewed this place"), s)
      | none =>
        let rev : Review :=
          { id := s.nextReviewId, rating := inp.rating.num, text := inp.text,
            userId := inp.userId, placeId := p.id, createdAt := now }
        (.ok rev,
         { s with reviews := s.reviews ++ [rev],
                  nextReviewId := s.nextReviewId + 1 })
    | none =>
      let p : Place := { id := s.nextPlaceId, name := inp.placeName, address := inp.address }
      match findReview s inp.userId p.id with
      | some _ => (.error (.ConflictError "already reviewed this place"), s)
      | none =>
        let rev : Review :=
          { id := s.nextReviewId, rating := inp.rating.num, text := inp.text,
            userId := inp.userId, placeId := p.id, createdAt := now }
        (.ok rev,
         { s with places := s.places ++ [p],
                  nextPlaceId := s.nextPlaceId + 1,
                  reviews := s.reviews ++ [rev],
                  nextReviewId := s.nextReviewId + 1 })

/-- Modelled from the spec: the place id a submission resolves to — the id of
the existing (name, address) place, or the freshly generated id when the
place is created inside the transaction (section 4.1 step 2). -/
def resolvePlaceId (s : Store) (name address : String) : Nat :=
  match findPlace s name address with
  | some p => p.id
  | none => s.nextPlaceId

/-! ### Aggregator.  Modelled from the spec: section 4.4. -/

/-- Modelled from the spec: rounding to two decimal places (sections 4.2
and 4.4), stated with the half-up rounding function of the library; this is
the specification-side description that the executable aggregator is proved
to satisfy. -/
def round2 (q : ℚ) : ℚ :=
  (round (q * 100) : ℚ) / 100

/-- The executable core of the aggregator: the average scaled by 100 and
rounded half-up, computed in integer arithmetic.  For a positive count,
`roundAvg100 s n` is the integer nearest to `100 * s / n` (half rounds up),
since `100 * s / n + 1 / 2 = (200 * s + n) / (2 * n)` and `Int.fdiv` by the
positive number `2 * n` is the floor of that quotient. -/
def roundAvg100 (sum : ℤ) (count : Nat) : ℤ :=
  (200 * sum + count).fdiv (2 * count)

/-- Modelled from the spec: the aggregation result of section 4.4. -/
structure AggResult where
  average : ℚ
  count : Nat
deriving DecidableEq, Repr

/-- Modelled from the spec: the pure rating aggregator of section 4.4 —
empty input yields average 0 and count 0, otherwise the mean of the ratings
rounded to two decimals (via the integer computation `roundAvg100`, proved
below to equal the rounded mean) and the count. -/
def aggregate (ratings : List ℤ) : AggResult :=
  if ratings.length = 0 then
    { average := 0, count := 0 }
  else
    { average := mkRat (roundAvg100 ratings.sum ratings.length) 100,
      count := ratings.length }

/-- Modelled from the spec: the list of review ratings of a place, read from
the live review rows (sections 3 and 4.4). -/
def placeRatings (s : Store) (placeId : Nat) : List ℤ :=
  (s.reviews.filter (fun r => r.placeId == placeId)).map (fun r => r.rating)

/-- Modelled from the spec: the derived average-rating view of a place. -/
def avgRating (s : Store) (placeId : Nat) : ℚ :=
  (aggregate (placeRatings s placeId)).average

/-! ### Search.  Modelled from the spec: section 4.2. -/

/-- Lowercase the characters of a string, for the case-insensitive
comparisons the search uses. -/
def lowerStr (x : String) : List Char :=
  x.data.map Char.toLower

/-- Substring test on character lists: the needle occurs contiguously in the
haystack. -/
def hasSub (needle : List Char) : List Char → Bool
  | [] => needle.isEmpty
  | c :: t => needle.isPrefixOf (c :: t) || hasSub needle t

/-- Modelled from the spec: a case-insensitive exact name match
(section 4.2). -/
def exactNameMatch (q : String) (name : String) : Bool :=
  lowerStr name == lowerStr q

/-- Modelled from the spec: a case-insensitive substring name match
(section 4.2); an exact match is also a substring match. -/
def subNameMatch (q : String) (name : String) : Bool :=
  hasSub (lowerStr q) (lowerStr name)

/-- Modelled from the spec: one search result entry
(section 4.2 output). -/
structure SearchResult where
  id : Nat
  name : String
  averageRating : ℚ
deriving DecidableEq, Repr

/-- Modelled from the spec: the projection of a place to its search-result
entry, with the aggregated rating. -/
def toResult (s : Store) (p : Place) : SearchResult :=
  { id := p.id, name := p.name, averageRating := avgRating s p.id }

/-- Modelled from the spec: the name-filtered, ordered candidate list of
section 4.2 — with a name filter, the exactly matching places (in store
order, i.e. by id when the store is id-sorted) followed by the places that
match only as a substring; without a name filter, all places. -/
def searchCandidates (s : Store) (nameQ : Option String) : List Place :=
  match nameQ with
  | none => s.places
  | some q =>
    s.places.filter (fun p => exactNameMatch q p.name) ++
      s.places.filter (fun p => !exactNameMatch q p.name && subNameMatch q p.name)

/-- Modelled from the spec: the search operation of section 4.2 — candidates
by name filter, then the minimum-average-rating filter, then projection to
result entries. -/
def searchPlaces (s : Store) (nameQ : Option String) (minRating : Option ℚ) :
    List SearchResult :=
  let cands := searchCandidates s nameQ
  let kept :=
    match minRating with
    | none => cands
    | some m => cands.filter (fun p => decide (m ≤ avgRating s p.id))
  kept.map (toResult s)

/-! ### Place detail.  Modelled from the spec: section 4.3. -/

/-- Modelled from the spec: one review entry of the detail payload
(section 4.3) — rating, text, createdAt and the display name of the
reviewing user; the type has no field for the phone or the password hash
of the reviewer. -/
structure ReviewEntry where
  rating : ℤ
  text : String
  createdAt : Nat
  userName : String
deriving DecidableEq, Repr

/-- Modelled from the spec: the detail payload of section 4.3. -/
structure PlaceDetail where
  id : Nat
  name : String
  address : String
  averageRating : ℚ
  reviewsCount : Nat
  reviews : List ReviewEntry
deriving DecidableEq, Repr

/-- Modelled from the spec: resolve the display name of a user id through the
join with the user table (section 4.3). -/
def userNameOf (s : Store) (uid : Nat) : String :=
  match s.users.find? (fun u => u.id == uid) with
  | some u => u.name
  | none => ""

/-- Newest-first ordering on reviews: a review precedes another when its
creation time is at least as large. -/
def newestFirst (a b : Review) : Prop :=
  b.createdAt ≤ a.createdAt

instance : DecidableRel newestFirst := fun a b => Nat.decLe b.createdAt a.createdAt

instance : IsTotal Review newestFirst :=
  ⟨fun a b => (Nat.le_total b.createdAt a.createdAt).imp id id⟩

instance : IsTrans Review newestFirst :=
  ⟨fun _ _ _ hab hbc => Nat.le_trans hbc hab⟩

/-- Modelled from the spec: projection of a review row to its detail entry,
joining in the display name of the reviewer. -/
def toEntry (s : Store) (r : Review) : ReviewEntry :=
  { rating := r.rating, text := r.text, createdAt := r.createdAt,
    userName := userNameOf s r.userId }

/-- Modelled from the spec: the place-detail operation of section 4.3 —
NotFoundError when the id resolves to no place; otherwise the payload with
the aggregated rating, the review count, and the reviews ordered with the
requesting user first and the rest newest-created-first. -/
def placeDetail (s : Store) (placeId userId : Nat) :
    Except DomainError PlaceDetail :=
  match s.places.find? (fun p => p.id == placeId) with
  | none => .error (.NotFoundError "Place not found")
  | some p =>
    let revs := s.reviews.filter (fun r => r.placeId == placeId)
    let own := revs.filter (fun r => r.userId == userId)
    let rest := revs.filter (fun r => !(r.userId == userId))
    let ordered := own ++ List.insertionSort newestFirst rest
    .ok
      { id := p.id, name := p.name, address := p.address,
        averageRating := avgRating s placeId,
        reviewsCount := revs.length,
        reviews := ordered.map (toEntry s) }

/-! ### Sample data used by the witness theorems -/

/-- A sample user. -/
def sampleUserA : User := ⟨1, "Aakif", "9999999999", "hashA"⟩

/-- A second sample user. -/
def sampleUserB : User := ⟨2, "Bea", "8888888888", "hashB"⟩

/-- A sample place with an exactly matching name for the query "apollo". -/
def samplePlaceA : Place := ⟨1, "Apollo", "Hyderabad"⟩

/-- A sample place whose name only contains "apollo" as a substring. -/
def samplePlaceB : Place := ⟨2, "Apollo Clinic", "Hyderabad"⟩

/-- A sample store: two users, two places, three reviews.  Place 1 has
ratings 5 and 4 (average 4.5); place 2 has rating 3. -/
def sampleStore : Store :=
  { users := [sampleUserA, sampleUserB],
    places := [samplePlaceA, samplePlaceB],
    reviews :=
      [⟨1, 5, "great", 1, 1, 10⟩, ⟨2, 4, "good", 2, 1, 20⟩, ⟨3, 3, "ok", 1, 2, 30⟩],
    nextPlaceId := 3,
    nextReviewId := 4 }

/-! ### Helper lemmas -/

/-- The integer rounding core agrees with the specification-side
two-decimal rounding of the mean. -/
theorem mkRat_roundAvg100_eq (s : ℤ) (n : ℕ) (hn : 0 < n) :
    (mkRat (roundAvg100 s n) 100 : ℚ) = round2 ((s : ℚ) / n) := by
  rw [Rat.mkRat_eq_div, roundAvg100, round2, round_eq]
  congr 1
  have h2n : (0 : ℤ) ≤ 2 * n := by positivity
  rw [Int.fdiv_eq_ediv _ h2n]
  have hn0 : ((n : ℚ)) ≠ 0 := by positivity
  have key : ((s : ℚ) / n * 100 + 1 / 2) =
      (((200 * s + (n : ℤ)) : ℤ) : ℚ) / ((2 * n : ℕ) : ℚ) := by
    push_cast
    field_simp
    ring
  rw [key, Rat.floor_intCast_div_natCast]
  push_cast
  rfl

/-- The average of a nonempty rating list is the two-decimal rounded mean. -/
theorem aggregate_average_eq (rs : List ℤ) (h : rs ≠ []) :
    (aggregate rs).average = round2 ((rs.sum : ℚ) / rs.length) := by
  have hlen : rs.length ≠ 0 := by simpa using h
  rw [aggregate, if_neg hlen]
  exact mkRat_roundAvg100_eq rs.sum rs.length (Nat.pos_of_ne_zero hlen)

/-! ### Claims about the error handler (from the source) -/

/-- C10: for every two error inputs that neither carry a statusCode field
nor have code "P2002", the error handler produces the identical response:
status 500 with body exactly the generic message — the response does not
depend on the message, code, or stack of the error. -/
theorem errorHandler_fallback_noninterference (e1 e2 : JsError)
    (h1 : e1.statusCode = none) (h2 : e2.statusCode = none)
    (hc1 : e1.code ≠ some "P2002") (hc2 : e2.code ≠ some "P2002") :
    errorHandler e1 = errorHandler e2 ∧
      errorHandler e1 = ⟨500, ⟨"Internal server error", none⟩⟩ := by
  have b1 : (e1.code == some "P2002") = false := beq_eq_false_iff_ne.mpr hc1
  have b2 : (e2.code == some "P2002") = false := beq_eq_false_iff_ne.mpr hc2
  unfold errorHandler
  rw [h1, h2]
  simp [b1, b2]

/-- Witness for C10 at two concrete errors that differ in message, code and
stack. -/
theorem errorHandler_fallback_noninterference_witness :
    errorHandler ⟨none, some "ECONNRESET", "db timeout", "stackOne"⟩ =
        errorHandler ⟨none, none, "other failure", "stackTwo"⟩ ∧
      errorHandler ⟨none, some "ECONNRESET", "db timeout", "stackOne"⟩ =
        ⟨500, ⟨"Internal server error", none⟩⟩ :=
  errorHandler_fallback_noninterference _ _ rfl rfl (by decide) (by decide)

/-- C9 counterexample: a Prisma unique-constraint error (code "P2002", no
statusCode) is answered with a body that carries an extra "code" field
inside the error object, so the body is not exactly of the claimed shape. -/
theorem errorHandler_shape_counterexample :
    (errorHandler ⟨none, some "P2002", "Unique constraint failed", "st"⟩).body.code =
        some "DUPLICATE_RESOURCE" ∧
      ¬((errorHandler ⟨none, some "P2002", "Unique constraint failed", "st"⟩).body.code =
        none) := by
  constructor
  · rfl
  · decide

/-- C9 (amended): for every error whose statusCode, when present, is one of
400/401/404/409, the response status lies in 400/401/404/409/500; the body
carries no extra field except in the P2002 case, where it is the fixed
duplicate-resource body; an error with a statusCode keeps its own message;
and the fallback answers with the generic message, never the internal
detail. -/
theorem errorHandler_response_shape (err : JsError)
    (hsc : ∀ sc, err.statusCode = some sc → sc ∈ ([400, 401, 404, 409] : List Nat)) :
    (errorHandler err).status ∈ ([400, 401, 404, 409, 500] : List Nat) ∧
      ((errorHandler err).body.code = none ∨
        (err.code = some "P2002" ∧
          (errorHandler err).body = ⟨"Resource already exists", some "DUPLICATE_RESOURCE"⟩ ∧
          (errorHandler err).status = 409)) ∧
      (∀ sc, err.statusCode = some sc →
        (errorHandler err).body.message = err.message) ∧
      (err.statusCode = none → err.code ≠ some "P2002" →
        (errorHandler err).body = ⟨"Internal server error", none⟩) := by
  rcases hstat : err.statusCode with _ | sc
  · by_cases hc : err.code = some "P2002"
    · have b : (err.code == some "P2002") = true := beq_iff_eq.mpr hc
      unfold errorHandler
      rw [hstat]
      simp [b, hc]
    · have b : (err.code == some "P2002") = false := beq_eq_false_iff_ne.mpr hc
      unfold errorHandler
      rw [hstat]
      simp [b]
  · have hmem := hsc sc hstat
    have hpos : sc ≠ 0 := by
      simp only [List.mem_cons, List.not_mem_nil, or_false] at hmem
      omega
    obtain ⟨n, rfl⟩ : ∃ n, sc = n + 1 := ⟨sc - 1, by omega⟩
    unfold errorHandler
    rw [hstat]
    refine ⟨?_, Or.inl rfl, fun sc2 h2 => rfl, fun h2 => by simp [hstat] at h2⟩
    simp only [List.mem_cons, List.not_mem_nil, or_false] at hmem ⊢
    omega

/-- Witness for C9 at a concrete not-found error with statusCode 404. -/
theorem errorHandler_response_shape_witness :
    (errorHandler ⟨some 404, none, "Place not found", "st"⟩).status ∈
        ([400, 401, 404, 409, 500] : List Nat) ∧
      ((errorHandler ⟨some 404, none, "Place not found", "st"⟩).body.code = none ∨
        ((⟨some 404, none, "Place not found", "st"⟩ : JsError).code = some "P2002" ∧
          (errorHandler ⟨some 404, none, "Place not found", "st"⟩).body =
            ⟨"Resource already exists", some "DUPLICATE_RESOURCE"⟩ ∧
          (errorHandler ⟨some 404, none, "Place not found", "st"⟩).status = 409)) ∧
      (∀ sc, (⟨some 404, none, "Place not found", "st"⟩ : JsError).statusCode = some sc →
        (errorHandler ⟨some 404, none, "Place not found", "st"⟩).body.message =
          "Place not found") ∧
      ((⟨some 404, none, "Place not found", "st"⟩ : JsError).statusCode = none →
        (⟨some 404, none, "Place not found", "st"⟩ : JsError).code ≠ some "P2002" →
        (errorHandler ⟨some 404, none, "Place not found", "st"⟩).body =
          ⟨"Internal server error", none⟩) :=
  errorHandler_response_shape ⟨some 404, none, "Place not found", "st"⟩ (by decide)

/-! ### Claims about the aggregator -/

/-- C3: the rating aggregator is a pure function: for every list of review
ratings it returns the arithmetic mean rounded to 2 decimal places together
with the count of the list, the empty list yields average 0 and count 0,
and the ratings [5, 4, 3] yield average exactly 4. -/
theorem aggregate_mean_rounded :
    aggregate [] = ⟨0, 0⟩ ∧
      (∀ rs : List ℤ, (aggregate rs).count = rs.length) ∧
      (∀ rs : List ℤ, rs ≠ [] →
        (aggregate rs).average = round2 ((rs.sum : ℚ) / rs.length)) ∧
      aggregate [5, 4, 3] = ⟨4, 3⟩ := by
  refine ⟨by decide, ?_, aggregate_average_eq, by decide⟩
  intro rs
  by_cases h : rs.length = 0
  · rw [aggregate, if_pos h]
    simpa using h.symm
  · rw [aggregate, if_neg h]

/-- Witness for C3 at the concrete rating list [2, 2, 3]. -/
theorem aggregate_mean_rounded_witness :
    (aggregate [2, 2, 3]).count = ([2, 2, 3] : List ℤ).length ∧
      (([2, 2, 3] : List ℤ) ≠ []) ∧
      (aggregate [2, 2, 3]).average =
        round2 ((([2, 2, 3] : List ℤ).sum : ℚ) / ([2, 2, 3] : List ℤ).length) :=
  ⟨aggregate_mean_rounded.2.1 [2, 2, 3], by decide,
    aggregate_mean_rounded.2.2.1 [2, 2, 3] (by decide)⟩

/-! ### Inversion helpers for the review-submission transaction -/

/-- The review row a successful submission inserts. -/
def insertedReview (s : Store) (inp : SubmitInput) (now : Nat) : Review :=
  { id := s.nextReviewId, rating := inp.rating.num, text := inp.text,
    userId := inp.userId, placeId := resolvePlaceId s inp.placeName inp.address,
    createdAt := now }

/-- Inversion of a successful submission: the rating was valid, the inserted
review is the canonical row, no conflicting review existed, and the store
grew by exactly that review plus (when the place was new) one place row. -/
theorem submitReview_ok_inv (s : Store) (inp : SubmitInput) (now : Nat)
    (rev : Review) (s' : Store)
    (h : submitReview s inp now = (.ok rev, s')) :
    ratingValid inp.rating = true ∧
      rev = insertedReview s inp now ∧
      findReview s inp.userId (resolvePlaceId s inp.placeName inp.address) = none ∧
      s'.reviews = s.reviews ++ [rev] ∧
      s'.users = s.users ∧
      ((∃ p, findPlace s inp.placeName inp.address = some p ∧ p.id = rev.placeId ∧
          s'.places = s.places) ∨
        (findPlace s inp.placeName inp.address = none ∧
          s'.places = s.places ++ [⟨s.nextPlaceId, inp.placeName, inp.address⟩] ∧
          rev.placeId = s.nextPlaceId)) := by
  unfold submitReview at h
  split at h
  · exact absurd (congrArg Prod.fst h) (by simp)
  next hvalid =>
    have hv : ratingValid inp.rating = true := by
      cases hval : ratingValid inp.rating
      · exact absurd hval hvalid
      · rfl
    split at h
    next p hfp =>
      split at h
      next r0 hfr => exact absurd (congrArg Prod.fst h) (by simp)
      next hfr =>
        try dsimp only at h
        injection h with hA hB
        injection hA with hrev
        have hres : resolvePlaceId s inp.placeName inp.address = p.id := by
          unfold resolvePlaceId
          rw [hfp]
        refine ⟨hv, ?_, ?_, ?_, ?_, Or.inl ⟨p, hfp, ?_, ?_⟩⟩
        · rw [← hrev]
          unfold insertedReview
          rw [hres]
        · rw [hres]
          exact hfr
        · rw [← hB, ← hrev]
        · rw [← hB]
        · rw [← hrev]
        · rw [← hB]
    next hfp =>
      try dsimp only at h
      split at h
      next r0 hfr => exact absurd (congrArg Prod.fst h) (by simp)
      next hfr =>
        try dsimp only at h
        injection h with hA hB
        injection hA with hrev
        have hres : resolvePlaceId s inp.placeName inp.address = s.nextPlaceId := by
          unfold resolvePlaceId
          rw [hfp]
        refine ⟨hv, ?_, ?_, ?_, ?_, Or.inr ⟨hfp, ?_, ?_⟩⟩
        · rw [← hrev]
          unfold insertedReview
          rw [hres]
        · rw [hres]
          exact hfr
        · rw [← hB, ← hrev]
        · rw [← hB]
        · rw [← hB]
        · rw [← hrev]

/-- Every failing branch of the transaction returns the original store. -/
theorem submitReview_error_store (s : Store) (inp : SubmitInput) (now : Nat)
    (e : DomainError) (h : (submitReview s inp now).1 = .error e) :
    (submitReview s inp now).2 = s := by
  rcases hx : submitReview s inp now with ⟨res, st⟩
  rw [hx] at h
  dsimp only at h ⊢
  unfold submitReview at hx
  split at hx
  · injection hx with h1 h2
    exact h2.symm
  next hvalid =>
    split at hx
    next p hfp =>
      split at hx
      next r0 hfr =>
        injection hx with h1 h2
        exact h2.symm
      next hfr =>
        try dsimp only at hx
        injection hx with h1 h2
        rw [← h1] at h
        simp at h
    next hfp =>
      try dsimp only at hx
      split at hx
      next r0 hfr =>
        injection hx with h1 h2
        exact h2.symm
      next hfr =>
        try dsimp only at hx
        injection hx with h1 h2
        rw [← h1] at h
        simp at h


/-- The place lookup only reads the place table. -/
theorem findPlace_congr {s s' : Store} (h : s'.places = s.places) (n a : String) :
    findPlace s' n a = findPlace s n a := by
  unfold findPlace
  rw [h]

/-- After a successful submission, the same (name, address) resolves to the
review's place and the same (user, place) lookup finds the new review. -/
theorem submitReview_ok_lookup (s : Store) (inp : SubmitInput) (now : Nat)
    (rev : Review) (s' : Store)
    (h : submitReview s inp now = (.ok rev, s')) :
    ∃ p : Place, findPlace s' inp.placeName inp.address = some p ∧
      p.id = rev.placeId ∧
      findReview s' inp.userId p.id = some rev := by
  obtain ⟨hv, hrev, hfrnone, hrevs, husers, hplace⟩ := submitReview_ok_inv s inp now rev s' h
  have hrevPlace : rev.placeId = resolvePlaceId s inp.placeName inp.address := by
    rw [hrev]
    rfl
  have hfr0 : s.reviews.find?
      (fun r => r.userId == inp.userId && r.placeId == rev.placeId) = none := by
    rw [hrevPlace]
    exact hfrnone
  rcases hplace with ⟨p, hfp, hpid, hplaces⟩ | ⟨hfpnone, hplaces, hpid⟩
  · refine ⟨p, by rw [findPlace_congr hplaces]; exact hfp, hpid, ?_⟩
    unfold findReview
    rw [hrevs, List.find?_append, hpid, hfr0, Option.none_or]
    simp [hrev, insertedReview]
  · refine ⟨⟨s.nextPlaceId, inp.placeName, inp.address⟩, ?_, by simpa using hpid.symm, ?_⟩
    · unfold findPlace at hfpnone ⊢
      rw [hplaces, List.find?_append, hfpnone, Option.none_or]
      simp
    · unfold findReview
      have : s.nextPlaceId = rev.placeId := hpid.symm
      rw [hrevs, List.find?_append]
      simp only [this]
      rw [hfr0, Option.none_or]
      simp [hrev, insertedReview]

/-- C1: a second review for the same (user, place) pair always fails with
ConflictError and creates no duplicate row — directly when a review with the
same (userId, placeId) already exists, after any successful submission when
the identical submission is repeated, and the (userId, placeId) uniqueness of
the review table is preserved by every submission. -/
theorem submitReview_duplicate_conflict :
    (∀ (s : Store) (inp : SubmitInput) (now : Nat) (p : Place) (r : Review),
        ratingValid inp.rating = true →
        findPlace s inp.placeName inp.address = some p →
        findReview s inp.userId p.id = some r →
        submitReview s inp now =
          (.error (.ConflictError "already reviewed this place"), s)) ∧
      (∀ (s : Store) (inp : SubmitInput) (now nowLater : Nat) (rev : Review) (s' : Store),
        submitReview s inp now = (.ok rev, s') →
        submitReview s' inp nowLater =
          (.error (.ConflictError "already reviewed this place"), s')) ∧
      (∀ (s : Store) (inp : SubmitInput) (now : Nat),
        (s.reviews.Pairwise fun a b => ¬(a.userId = b.userId ∧ a.placeId = b.placeId)) →
        ((submitReview s inp now).2.reviews.Pairwise fun a b =>
          ¬(a.userId = b.userId ∧ a.placeId = b.placeId))) := by
  refine ⟨?_, ?_, ?_⟩
  · intro s inp now p r hv hfp hfr
    unfold submitReview
    rw [hv]
    simp only [Bool.true_eq_false, if_false]
    rw [hfp]
    dsimp only
    rw [hfr]
  · intro s inp now nowLater rev s' h
    obtain ⟨hv, _, _, _, _, _⟩ := submitReview_ok_inv s inp now rev s' h
    obtain ⟨p, hfp, hpid, hfr⟩ := submitReview_ok_lookup s inp now rev s' h
    unfold submitReview
    rw [hv]
    simp only [Bool.true_eq_false, if_false]
    rw [hfp]
    dsimp only
    rw [hfr]
  · intro s inp now hpair
    rcases hx : submitReview s inp now with ⟨res, st⟩
    cases res with
    | error e =>
      have hst : (submitReview s inp now).2 = s :=
        submitReview_error_store s inp now e (by rw [hx])
      rw [hx] at hst
      dsimp only at hst ⊢
      rw [hst]
      exact hpair
    | ok rev =>
      obtain ⟨hv, hrev, hfrnone, hrevs, husers, hplace⟩ :=
        submitReview_ok_inv s inp now rev st hx
      dsimp only
      rw [hrevs]
      rw [List.pairwise_append]
      refine ⟨hpair, by simp, ?_⟩
      intro a ha b hb
      simp only [List.mem_singleton] at hb
      subst hb
      unfold findReview at hfrnone
      rw [List.find?_eq_none] at hfrnone
      have := hfrnone a ha
      simp only [Bool.and_eq_true, beq_iff_eq, not_and] at this
      rintro ⟨h1, h2⟩
      rw [hrev] at h1 h2
      simp only [insertedReview] at h1 h2
      exact this h1 h2


/-- Witness for C1: user 2 already reviewed place 1 of the sample store, so
resubmitting fails with ConflictError and the store is unchanged. -/
theorem submitReview_duplicate_conflict_witness :
    ratingValid ((⟨2, "Apollo", "Hyderabad", 5, "again"⟩ : SubmitInput)).rating = true ∧
      findPlace sampleStore "Apollo" "Hyderabad" = some samplePlaceA ∧
      findReview sampleStore 2 samplePlaceA.id = some ⟨2, 4, "good", 2, 1, 20⟩ ∧
      submitReview sampleStore ⟨2, "Apollo", "Hyderabad", 5, "again"⟩ 40 =
        (.error (.ConflictError "already reviewed this place"), sampleStore) :=
  ⟨by decide, by decide, by decide,
    submitReview_duplicate_conflict.1 sampleStore ⟨2, "Apollo", "Hyderabad", 5, "again"⟩
      40 samplePlaceA ⟨2, 4, "good", 2, 1, 20⟩ (by decide) (by decide) (by decide)⟩

/-- C2: review submission is atomic — on every error the returned store is
exactly the input store (no partial effect, in particular no leftover place
row), and on success both the review row and its place row (with the
submitted name and address) are present in the returned store. -/
theorem submitReview_atomic (s : Store) (inp : SubmitInput) (now : Nat) :
    (∀ e : DomainError, (submitReview s inp now).1 = .error e →
      (submitReview s inp now).2 = s) ∧
      (∀ (rev : Review) (s' : Store), submitReview s inp now = (.ok rev, s') →
        rev ∈ s'.reviews ∧
        ∃ p ∈ s'.places, p.id = rev.placeId ∧ p.name = inp.placeName ∧
          p.address = inp.address) := by
  refine ⟨submitReview_error_store s inp now, ?_⟩
  intro rev s' h
  obtain ⟨hv, hrev, hfrnone, hrevs, husers, hplace⟩ := submitReview_ok_inv s inp now rev s' h
  constructor
  · rw [hrevs]
    simp
  · rcases hplace with ⟨p, hfp, hpid, hplaces⟩ | ⟨hfpnone, hplaces, hpid⟩
    · unfold findPlace at hfp
      have hmem : p ∈ s.places := List.mem_of_find?_eq_some hfp
      have hpred := List.find?_some hfp
      simp only [Bool.and_eq_true, beq_iff_eq] at hpred
      exact ⟨p, by rw [hplaces]; exact hmem, hpid, hpred.1, hpred.2⟩
    · refine ⟨⟨s.nextPlaceId, inp.placeName, inp.address⟩, ?_, by simpa using hpid.symm,
        rfl, rfl⟩
      rw [hplaces]
      simp

/-- Witness for C2: an invalid-rating submission leaves the sample store
unchanged, and a successful submission for a new place inserts both rows. -/
theorem submitReview_atomic_witness :
    (submitReview sampleStore ⟨1, "Apollo", "Hyderabad", mkRat 7 2, "bad"⟩ 50).2 =
        sampleStore ∧
      ((⟨4, 5, "nice", 2, 3, 50⟩ : Review) ∈
          (submitReview sampleStore ⟨2, "Fortis", "Delhi", 5, "nice"⟩ 50).2.reviews ∧
        ∃ p ∈ (submitReview sampleStore ⟨2, "Fortis", "Delhi", 5, "nice"⟩ 50).2.places,
          p.id = (⟨4, 5, "nice", 2, 3, 50⟩ : Review).placeId ∧ p.name = "Fortis" ∧
            p.address = "Delhi") :=
  ⟨(submitReview_atomic sampleStore ⟨1, "Apollo", "Hyderabad", mkRat 7 2, "bad"⟩ 50).1
      (.ValidationError "rating must be an integer between 1 and 5") (by decide),
    (submitReview_atomic sampleStore ⟨2, "Fortis", "Delhi", 5, "nice"⟩ 50).2
      ⟨4, 5, "nice", 2, 3, 50⟩
      (submitReview sampleStore ⟨2, "Fortis", "Delhi", 5, "nice"⟩ 50).2 (by decide)⟩

/-- C7: an input whose rating is not an integer in [1, 5] fails with
ValidationError and leaves the store unchanged; validity of the rating is
exactly being an integer between 1 and 5; and a valid rating with no prior
review by that (user, place) succeeds, returning the created review with the
generated id and the resolved place id. -/
theorem submitReview_rating_validation :
    (∀ (s : Store) (inp : SubmitInput) (now : Nat),
      ratingValid inp.rating = false →
      submitReview s inp now =
        (.error (.ValidationError "rating must be an integer between 1 and 5"), s)) ∧
      (∀ r : ℚ, ratingValid r = true ↔ ∃ k : ℤ, r = (k : ℚ) ∧ 1 ≤ k ∧ k ≤ 5) ∧
      (∀ (s : Store) (inp : SubmitInput) (now : Nat),
        ratingValid inp.rating = true →
        findReview s inp.userId (resolvePlaceId s inp.placeName inp.address) = none →
        ∃ (rev : Review) (s' : Store), submitReview s inp now = (.ok rev, s') ∧
          rev.id = s.nextReviewId ∧
          rev.placeId = resolvePlaceId s inp.placeName inp.address ∧
          rev.rating = inp.rating.num ∧
          rev ∈ s'.reviews) := by
  refine ⟨?_, ?_, ?_⟩
  · intro s inp now h
    unfold submitReview
    simp [h]
  · intro r
    unfold ratingValid
    constructor
    · intro hb
      simp only [Bool.and_eq_true, beq_iff_eq, decide_eq_true_eq] at hb
      obtain ⟨⟨hden, h1⟩, h5⟩ := hb
      exact ⟨r.num, ((Rat.den_eq_one_iff r).mp hden).symm, h1, h5⟩
    · rintro ⟨k, rfl, h1, h5⟩
      simp [Rat.den_intCast, Rat.num_intCast, h1, h5]
  · intro s inp now hv hfr
    cases hfp : findPlace s inp.placeName inp.address with
    | some p =>
      have hres : resolvePlaceId s inp.placeName inp.address = p.id := by
        unfold resolvePlaceId
        rw [hfp]
      rw [hres] at hfr
      refine ⟨⟨s.nextReviewId, inp.rating.num, inp.text, inp.userId, p.id, now⟩, ?_⟩
      refine ⟨{ s with reviews := s.reviews ++ [⟨s.nextReviewId, inp.rating.num, inp.text, inp.userId, p.id, now⟩], nextReviewId := s.nextReviewId + 1 }, ?_, rfl, ?_, rfl, ?_⟩
      · unfold submitReview
        rw [hv]
        simp only [Bool.true_eq_false, if_false]
        rw [hfp]
        dsimp only
        rw [hfr]
      · dsimp only
        rw [hres]
      · simp
    | none =>
      have hres : resolvePlaceId s inp.placeName inp.address = s.nextPlaceId := by
        unfold resolvePlaceId
        rw [hfp]
      rw [hres] at hfr
      refine ⟨⟨s.nextReviewId, inp.rating.num, inp.text, inp.userId, s.nextPlaceId, now⟩, ?_⟩
      refine ⟨{ s with places := s.places ++ [⟨s.nextPlaceId, inp.placeName, inp.address⟩], nextPlaceId := s.nextPlaceId + 1, reviews := s.reviews ++ [⟨s.nextReviewId, inp.rating.num, inp.text, inp.userId, s.nextPlaceId, now⟩], nextReviewId := s.nextReviewId + 1 }, ?_, rfl, ?_, rfl, ?_⟩
      · unfold submitReview
        rw [hv]
        simp only [Bool.true_eq_false, if_false]
        rw [hfp]
        dsimp only
        rw [hfr]
      · dsimp only
        rw [hres]
      · simp

/-- Witness for C7: a rating of 7/2 is rejected with the store unchanged,
the rating 5 is valid, and a fresh (user, place) submission succeeds. -/
theorem submitReview_rating_validation_witness :
    ratingValid (mkRat 7 2) = false ∧
      submitReview sampleStore ⟨1, "Apollo", "Hyderabad", mkRat 7 2, "bad"⟩ 50 =
        (.error (.ValidationError "rating must be an integer between 1 and 5"),
          sampleStore) ∧
      (∃ k : ℤ, (5 : ℚ) = (k : ℚ) ∧ 1 ≤ k ∧ k ≤ 5) ∧
      (∃ (rev : Review) (s' : Store),
        submitReview sampleStore ⟨2, "Fortis", "Delhi", 5, "nice"⟩ 50 = (.ok rev, s') ∧
          rev.id = sampleStore.nextReviewId ∧
          rev.placeId = resolvePlaceId sampleStore "Fortis" "Delhi" ∧
          rev.rating = ((5 : ℚ)).num ∧
          rev ∈ s'.reviews) :=
  ⟨by decide,
    submitReview_rating_validation.1 sampleStore ⟨1, "Apollo", "Hyderabad", mkRat 7 2, "bad"⟩
      50 (by decide),
    (submitReview_rating_validation.2.1 5).mp (by decide),
    submitReview_rating_validation.2.2 sampleStore ⟨2, "Fortis", "Delhi", 5, "nice"⟩ 50
      (by decide) (by decide)⟩


/-- C4: with a name filter, every exactly (case-insensitively) matching place
appears in the search result before every place that matches only as a
substring, and within each group the order is the deterministic id-ascending
store order: the result splits as an exact-match block followed by a
partial-only block, each sorted by id when the place table is. -/
theorem search_exact_before_partial (s : Store) (q : String) (mr : Option ℚ)
    (hsorted : s.places.Pairwise fun a b => a.id < b.id) :
    ∃ E P : List SearchResult,
      searchPlaces s (some q) mr = E ++ P ∧
        (∀ r ∈ E, exactNameMatch q r.name = true) ∧
        (∀ r ∈ P, exactNameMatch q r.name = false ∧ subNameMatch q r.name = true) ∧
        E.Pairwise (fun a b => a.id < b.id) ∧
        P.Pairwise (fun a b => a.id < b.id) := by
  obtain ⟨A2, B2, hkept, hA2, hB2⟩ :
      ∃ A2 B2 : List Place,
        searchPlaces s (some q) mr = A2.map (toResult s) ++ B2.map (toResult s) ∧
          A2.Sublist (s.places.filter fun p => exactNameMatch q p.name) ∧
          B2.Sublist (s.places.filter fun p =>
            !exactNameMatch q p.name && subNameMatch q p.name) := by
    cases mr with
    | none =>
      refine ⟨_, _, ?_, List.Sublist.refl _, List.Sublist.refl _⟩
      unfold searchPlaces searchCandidates
      dsimp only
      rw [List.map_append]
    | some m =>
      refine ⟨(s.places.filter fun p => exactNameMatch q p.name).filter
          (fun p => decide (m ≤ avgRating s p.id)),
        (s.places.filter fun p => !exactNameMatch q p.name && subNameMatch q p.name).filter
          (fun p => decide (m ≤ avgRating s p.id)),
        ?_, List.filter_sublist _, List.filter_sublist _⟩
      unfold searchPlaces searchCandidates
      dsimp only
      rw [List.filter_append, List.map_append]
  refine ⟨A2.map (toResult s), B2.map (toResult s), hkept, ?_, ?_, ?_, ?_⟩
  · intro r hr
    obtain ⟨p, hp, rfl⟩ := List.mem_map.mp hr
    have := List.mem_filter.mp (hA2.subset hp)
    exact this.2
  · intro r hr
    obtain ⟨p, hp, rfl⟩ := List.mem_map.mp hr
    have := List.mem_filter.mp (hB2.subset hp)
    have h2 := this.2
    simp only [Bool.and_eq_true, Bool.not_eq_true'] at h2
    exact h2
  · rw [List.pairwise_map]
    exact ((hsorted.filter _).sublist hA2)
  · rw [List.pairwise_map]
    exact ((hsorted.filter _).sublist hB2)

/-- Witness for C4 at the sample store and the query "apollo": the place
named exactly "Apollo" forms the first block, "Apollo Clinic" the second. -/
theorem search_exact_before_partial_witness :
    (sampleStore.places.Pairwise fun a b => a.id < b.id) ∧
      ∃ E P : List SearchResult,
        searchPlaces sampleStore (some "apollo") none = E ++ P ∧
          (∀ r ∈ E, exactNameMatch "apollo" r.name = true) ∧
          (∀ r ∈ P, exactNameMatch "apollo" r.name = false ∧
            subNameMatch "apollo" r.name = true) ∧
          E.Pairwise (fun a b => a.id < b.id) ∧
          P.Pairwise (fun a b => a.id < b.id) :=
  ⟨by decide, search_exact_before_partial sampleStore "apollo" none (by decide)⟩

/-- C6: with a minRating filter, the search result consists exactly of the
name-filter candidates whose aggregated average rating reaches the bound,
and a place with no reviews (average 0) is never in the result when the
bound is positive. -/
theorem search_min_rating (s : Store) (q : Option String) (m : ℚ) :
    (∀ res ∈ searchPlaces s q (some m),
      ∃ p ∈ searchCandidates s q, res = toResult s p ∧ m ≤ avgRating s p.id ∧
        m ≤ avgRating s res.id) ∧
      (∀ p ∈ searchCandidates s q, m ≤ avgRating s p.id →
        toResult s p ∈ searchPlaces s q (some m)) ∧
      (∀ p : Place, placeRatings s p.id = [] → 0 < m →
        toResult s p ∉ searchPlaces s q (some m)) := by
  have hmem : ∀ res : SearchResult, res ∈ searchPlaces s q (some m) ↔
      ∃ p ∈ searchCandidates s q, m ≤ avgRating s p.id ∧ toResult s p = res := by
    intro res
    unfold searchPlaces
    dsimp only
    rw [List.mem_map]
    constructor
    · rintro ⟨p, hp, rfl⟩
      have := List.mem_filter.mp hp
      exact ⟨p, this.1, by simpa using this.2, rfl⟩
    · rintro ⟨p, hp, hle, rfl⟩
      exact ⟨p, List.mem_filter.mpr ⟨hp, by simpa using hle⟩, rfl⟩
  refine ⟨?_, ?_, ?_⟩
  · intro res hres
    obtain ⟨p, hp, hle, heq⟩ := (hmem res).mp hres
    refine ⟨p, hp, heq.symm, hle, ?_⟩
    rw [← heq]
    exact hle
  · intro p hp hle
    exact (hmem _).mpr ⟨p, hp, hle, rfl⟩
  · intro p h0 hmpos hin
    obtain ⟨p2, hp2, hle, heq⟩ := (hmem _).mp hin
    have hid : p2.id = p.id := by
      have := congrArg SearchResult.id heq
      simpa [toResult] using this
    rw [hid] at hle
    have hz : avgRating s p.id = 0 := by
      unfold avgRating
      rw [h0]
      rfl
    rw [hz] at hle
    exact absurd (lt_of_lt_of_le hmpos hle) (lt_irrefl 0)

/-- Witness for C6: with bound 4 the sample search keeps place 1 (average
4.5) and drops place 2 (average 3); a review-less place is excluded for any
positive bound. -/
theorem search_min_rating_witness :
    ((⟨1, "Apollo", mkRat 9 2⟩ : SearchResult) ∈
        searchPlaces sampleStore (some "apollo") (some 4)) ∧
      (∃ p ∈ searchCandidates sampleStore (some "apollo"),
        (⟨1, "Apollo", mkRat 9 2⟩ : SearchResult) = toResult sampleStore p ∧
          (4 : ℚ) ≤ avgRating sampleStore p.id ∧
          (4 : ℚ) ≤ avgRating sampleStore
            ((⟨1, "Apollo", mkRat 9 2⟩ : SearchResult)).id) ∧
      placeRatings sampleStore 9 = [] ∧ (0 : ℚ) < 1 ∧
      toResult sampleStore ⟨9, "Empty", "Nowhere"⟩ ∉
        searchPlaces sampleStore (some "Empty") (some 1) :=
  ⟨by decide,
    (search_min_rating sampleStore (some "apollo") 4).1 ⟨1, "Apollo", mkRat 9 2⟩ (by decide),
    by decide, by decide,
    (search_min_rating sampleStore (some "Empty") 1).2.2 ⟨9, "Empty", "Nowhere"⟩
      (by decide) (by decide)⟩


/-- A list of reviews that all carry the same (userId, placeId) key and is
pairwise key-distinct has at most one element. -/
theorem length_le_one_of_same_key {l : List Review} (uid pid : Nat)
    (hpw : l.Pairwise fun a b => ¬(a.userId = b.userId ∧ a.placeId = b.placeId))
    (hall : ∀ r ∈ l, r.userId = uid ∧ r.placeId = pid) : l.length ≤ 1 := by
  match l with
  | [] => simp
  | [a] => simp
  | a :: b :: t =>
    exfalso
    have hrel := List.rel_of_pairwise_cons hpw (List.mem_cons_self b t)
    have ha := hall a (by simp)
    have hb := hall b (by simp)
    exact hrel ⟨ha.1.trans hb.1.symm, ha.2.trans hb.2.symm⟩

/-- The display-name lookup depends only on the id and name columns. -/
theorem findUserName_congr (uid : Nat) {us vs : List User}
    (hu : List.Forall₂ (fun u v : User => u.id = v.id ∧ u.name = v.name) us vs) :
    (match us.find? (fun u => u.id == uid) with
      | some u => u.name
      | none => "") =
    (match vs.find? (fun u => u.id == uid) with
      | some u => u.name
      | none => "") := by
  induction hu with
  | nil => rfl
  | cons h t ih =>
    rename_i u v us2 vs2
    cases hid : (u.id == uid) with
    | true =>
      have hv : (v.id == uid) = true := by
        rw [← h.1]
        exact hid
      simp only [List.find?, hid, hv]
      exact h.2
    | false =>
      have hv : (v.id == uid) = false := by
        rw [← h.1]
        exact hid
      simp only [List.find?, hid, hv]
      exact ih

/-- The display-name join reads only ids and names of the user table. -/
theorem userNameOf_congr (s1 s2 : Store)
    (hu : List.Forall₂ (fun u v : User => u.id = v.id ∧ u.name = v.name)
      s1.users s2.users) (uid : Nat) :
    userNameOf s1 uid = userNameOf s2 uid := by
  unfold userNameOf
  exact findUserName_congr uid hu

/-- C5: for an existing place, the detail payload lists the requesting
user's own review (at most one, by the uniqueness invariant) first, followed
by all remaining reviews of the place sorted newest-created-first; every
entry is the (rating, text, createdAt, display-name) projection of a review
row; and the payload does not depend on any phone or password hash — stores
differing only in those user fields produce identical details. -/
theorem placeDetail_review_order :
    (∀ (s : Store) (pid uid : Nat) (p : Place),
      (s.reviews.Pairwise fun a b => ¬(a.userId = b.userId ∧ a.placeId = b.placeId)) →
      s.places.find? (fun x => x.id == pid) = some p →
      ∃ (d : PlaceDetail) (own rest : List Review),
        placeDetail s pid uid = .ok d ∧
          d.reviews = (own ++ rest).map (toEntry s) ∧
          own.length ≤ 1 ∧
          (∀ r ∈ own, r ∈ s.reviews ∧ r.placeId = pid ∧ r.userId = uid) ∧
          (∀ r ∈ s.reviews, r.placeId = pid → r.userId = uid → r ∈ own) ∧
          (∀ r : Review, r ∈ rest ↔ r ∈ s.reviews ∧ r.placeId = pid ∧ r.userId ≠ uid) ∧
          (rest.Pairwise fun a b => b.createdAt ≤ a.createdAt)) ∧
      (∀ (s1 s2 : Store) (pid uid : Nat),
        s1.places = s2.places → s1.reviews = s2.reviews →
        List.Forall₂ (fun u v : User => u.id = v.id ∧ u.name = v.name) s1.users s2.users →
        placeDetail s1 pid uid = placeDetail s2 pid uid) := by
  constructor
  · intro s pid uid p huniq hfp
    unfold placeDetail
    rw [hfp]
    dsimp only
    refine ⟨_, (s.reviews.filter fun r => r.placeId == pid).filter (fun r => r.userId == uid),
      List.insertionSort newestFirst
        ((s.reviews.filter fun r => r.placeId == pid).filter fun r => !(r.userId == uid)),
      rfl, rfl, ?_, ?_, ?_, ?_, ?_⟩
    · refine length_le_one_of_same_key uid pid
        (huniq.sublist ((List.filter_sublist _).trans (List.filter_sublist _))) ?_
      intro r hr
      simp only [List.mem_filter, beq_iff_eq] at hr
      exact ⟨hr.2, hr.1.2⟩
    · intro r hr
      simp only [List.mem_filter, beq_iff_eq] at hr
      exact ⟨hr.1.1, hr.1.2, hr.2⟩
    · intro r hr hpid2 huid2
      simp only [List.mem_filter, beq_iff_eq]
      exact ⟨⟨hr, hpid2⟩, huid2⟩
    · intro r
      rw [(List.perm_insertionSort newestFirst _).mem_iff]
      simp only [List.mem_filter, beq_iff_eq, Bool.not_eq_true', beq_eq_false_iff_ne]
      tauto
    · exact List.sorted_insertionSort newestFirst _
  · intro s1 s2 pid uid hp hr hu
    have havg : avgRating s1 pid = avgRating s2 pid := by
      unfold avgRating placeRatings
      rw [hr]
    have hname : ∀ uidx, userNameOf s1 uidx = userNameOf s2 uidx :=
      userNameOf_congr s1 s2 hu
    unfold placeDetail
    rw [hp, hr]
    cases hfp : s2.places.find? (fun x => x.id == pid) with
    | none => rfl
    | some p =>
      dsimp only
      rw [havg]
      have hmap : ∀ l : List Review, l.map (toEntry s1) = l.map (toEntry s2) := by
        intro l
        refine List.map_congr_left ?_
        intro a _
        unfold toEntry
        rw [hname]
      rw [hmap]

/-- Witness for C5: in the sample store, the detail of place 1 for user 2
starts with user 2's own review followed by the rest newest-first, and the
result is identical on a store with all phones and password hashes blanked. -/
theorem placeDetail_review_order_witness :
    ((sampleStore.reviews.Pairwise fun a b =>
        ¬(a.userId = b.userId ∧ a.placeId = b.placeId)) ∧
      sampleStore.places.find? (fun x => x.id == 1) = some samplePlaceA ∧
      (∃ (d : PlaceDetail) (own rest : List Review),
        placeDetail sampleStore 1 2 = .ok d ∧
          d.reviews = (own ++ rest).map (toEntry sampleStore) ∧
          own.length ≤ 1 ∧
          (∀ r ∈ own, r ∈ sampleStore.reviews ∧ r.placeId = 1 ∧ r.userId = 2) ∧
          (∀ r ∈ sampleStore.reviews, r.placeId = 1 → r.userId = 2 → r ∈ own) ∧
          (∀ r : Review, r ∈ rest ↔
            r ∈ sampleStore.reviews ∧ r.placeId = 1 ∧ r.userId ≠ 2) ∧
          (rest.Pairwise fun a b => b.createdAt ≤ a.createdAt))) ∧
      placeDetail sampleStore 1 2 =
        placeDetail { sampleStore with
          users := [⟨1, "Aakif", "", ""⟩, ⟨2, "Bea", "", ""⟩] } 1 2 :=
  ⟨⟨by decide, by decide,
      placeDetail_review_order.1 sampleStore 1 2 samplePlaceA (by decide) (by decide)⟩,
    placeDetail_review_order.2 sampleStore
      { sampleStore with users := [⟨1, "Aakif", "", ""⟩, ⟨2, "Bea", "", ""⟩] } 1 2 rfl rfl
      (.cons ⟨rfl, rfl⟩ (.cons ⟨rfl, rfl⟩ .nil))⟩

/-- C8: a detail request for an id with no place fails with NotFoundError;
for an existing place it returns the payload with the place fields, the
two-decimal rounded average (0 when the place has no reviews), and the
review count. -/
theorem placeDetail_not_found_payload (s : Store) (pid uid : Nat) :
    (s.places.find? (fun x => x.id == pid) = none →
      placeDetail s pid uid = .error (.NotFoundError "Place not found")) ∧
      (∀ p : Place, s.places.find? (fun x => x.id == pid) = some p →
        ∃ d : PlaceDetail, placeDetail s pid uid = .ok d ∧
          d.id = p.id ∧ d.name = p.name ∧ d.address = p.address ∧
          d.averageRating = avgRating s pid ∧
          (placeRatings s pid = [] → d.averageRating = 0) ∧
          (placeRatings s pid ≠ [] →
            d.averageRating =
              round2 (((placeRatings s pid).sum : ℚ) / (placeRatings s pid).length)) ∧
          d.reviewsCount = (s.reviews.filter fun r => r.placeId == pid).length) := by
  constructor
  · intro h
    unfold placeDetail
    rw [h]
  · intro p hp
    unfold placeDetail
    rw [hp]
    dsimp only
    refine ⟨_, rfl, rfl, rfl, rfl, rfl, ?_, ?_, rfl⟩
    · intro h0
      unfold avgRating
      rw [h0]
      rfl
    · intro hne
      unfold avgRating
      exact aggregate_average_eq _ hne

/-- Witness for C8: place 9 does not exist in the sample store (NotFound),
place 1 exists and its payload is returned. -/
theorem placeDetail_not_found_payload_witness :
    (sampleStore.places.find? (fun x => x.id == 9) = none ∧
      placeDetail sampleStore 9 1 = .error (.NotFoundError "Place not found")) ∧
      (sampleStore.places.find? (fun x => x.id == 1) = some samplePlaceA ∧
        ∃ d : PlaceDetail, placeDetail sampleStore 1 1 = .ok d ∧
          d.id = samplePlaceA.id ∧ d.name = samplePlaceA.name ∧
          d.address = samplePlaceA.address ∧
          d.averageRating = avgRating sampleStore 1 ∧
          (placeRatings sampleStore 1 = [] → d.averageRating = 0) ∧
          (placeRatings sampleStore 1 ≠ [] →
            d.averageRating = round2 (((placeRatings sampleStore 1).sum : ℚ) /
              (placeRatings sampleStore 1).length)) ∧
          d.reviewsCount =
            (sampleStore.reviews.filter fun r => r.placeId == 1).length) :=
  ⟨⟨by decide, (placeDetail_not_found_payload sampleStore 9 1).1 (by decide)⟩,
    ⟨by decide, (placeDetail_not_found_payload sampleStore 1 1).2 samplePlaceA (by decide)⟩⟩

end PlaceReview
